import Mathlib

/-!
Verification of the constlint analyzer (package `analyzer`, file `analyzer.go`).

The development shallowly embeds the analyzer's two passes:
index building (`run`, first `Preorder`: struct-field markers and
function-parameter markers) and mutation scanning (`run`, second `Preorder`:
`checkFieldAssignment` / `checkParamAssignment`), together with the
initialization-context heuristic `isInstanciator`.

Go strings are modelled over `List Char` (all marker text is ASCII), Go maps
as association lists with last-write-wins insertion, and the resolved
type/object information supplied by `go/types` as explicit fields on the AST
nodes.  Statement sequences are right-nested via `Stmt.seq`; expression lists
(assignment targets, composite-literal elements) are right-nested via
`Expr.pair` / `Expr.enil`.
-/

namespace Constlint

/-! ## String primitives (mirroring the `strings` package on ASCII data) -/

/-- Index of the first occurrence of `sub` in `s`, as `strings.Index`. -/
def subIndex (sub : List Char) : List Char → Option Nat
  | [] => if sub.isEmpty then some 0 else none
  | c :: t =>
    if List.isPrefixOf sub (c :: t) then some 0
    else (subIndex sub t).map (· + 1)

/-- Mirror of `strings.Index(s, sub)` on the character level. -/
def strIndex (s sub : String) : Option Nat := subIndex sub.data s.data

/-- Mirror of `strings.Contains(s, sub)`. -/
def strContains (s sub : String) : Bool := (strIndex s sub).isSome

/-- White-space test used by `strings.TrimSpace` (ASCII fragment). -/
def isSpaceChar (c : Char) : Bool :=
  c == ' ' || c == '\t' || c == '\n' || c == '\r'

/-- Character-level trim of leading and trailing white space. -/
def trimChars (s : List Char) : List Char :=
  ((s.dropWhile isSpaceChar).reverse.dropWhile isSpaceChar).reverse

/-- Mirror of `strings.TrimSpace`. -/
def strTrim (s : String) : String := String.mk (trimChars s.data)

/-- Mirror of `strings.Split(s, ",")`: split at every comma. -/
def splitComma : List Char → List (List Char)
  | [] => [[]]
  | c :: rest =>
    if c == ',' then [] :: splitComma rest
    else
      match splitComma rest with
      | [] => [[c]]
      | p :: ps => (c :: p) :: ps

/-! ## Association-list maps (Go `map` semantics: insert overwrites) -/

/-- Insertion with overwrite, as Go's `m[k] = v`. -/
def mapInsert {α β : Type} [DecidableEq α] : List (α × β) → α → β → List (α × β)
  | [], k, v => [(k, v)]
  | (k', v') :: rest, k, v =>
    if k = k' then (k, v) :: rest else (k', v') :: mapInsert rest k v

/-- Lookup, as Go's `m[k]` with presence flag. -/
def mapLookup {α β : Type} [DecidableEq α] : List (α × β) → α → Option β
  | [], _ => none
  | (k', v') :: rest, k => if k = k' then some v' else mapLookup rest k

/-! ## Resolved type and object information (from `go/types`) -/

/-- Identity of a named type: the `*types.TypeName` object.  Two type
declarations are the same owner exactly when their identities coincide;
the display name is carried separately for diagnostics. -/
structure TypeName where
  id : Nat
  name : String
deriving DecidableEq

/-- Shape of a resolved static type as far as the analyzer inspects it. -/
inductive GoType where
  | named (tn : TypeName)
  | pointer (elem : GoType)
  | basic
deriving DecidableEq

/-- Result of `pass.TypesInfo.Selections[selExpr]` as far as the analyzer
reads it: the selection kind and the receiver type. -/
structure Selection where
  isFieldVal : Bool
  recv : Option GoType
deriving DecidableEq

/-- Kind of a resolved object — information the type resolver provides.
The analyzer itself never reads it (`checkParamAssignment` only tests the
object for `nil` and for `token.NoPos`). -/
inductive ObjKind where
  | param
  | localVar
  | pkgVar
deriving DecidableEq

/-- Result of `pass.TypesInfo.ObjectOf(ident)` as the analyzer sees it:
whether `obj.Pos() != token.NoPos`, plus the resolver-known binding kind. -/
structure ObjInfo where
  hasPos : Bool
  kind : ObjKind
deriving DecidableEq

/-! ## AST fragment visited by the analyzer -/

/-- Expressions.  `pair`/`enil` right-nest expression sequences (assignment
target lists, composite-literal element lists). -/
inductive Expr where
  | ident (pos : Nat) (name : String) (obj : Option ObjInfo)
  | selector (pos : Nat) (recvE : Expr) (selName : String) (sel : Option Selection)
  | compositeLit (litType : Option GoType) (elts : Expr)
  | unary (e : Expr)
  | basicLit
  | enil
  | pair (head tail : Expr)
deriving DecidableEq

/-- Statements.  `seq` right-nests statement lists; `skip` is the empty
statement. -/
inductive Stmt where
  | assign (isDefine : Bool) (lhs rhs : Expr)
  | incDec (e : Expr)
  | ifS (cond : Expr) (thn els : Stmt)
  | ret (results : Expr)
  | seq (s t : Stmt)
  | skip
deriving DecidableEq

/-- Struct-field declaration: leading (`Doc`) and trailing (`Comment`)
comment texts, and the declared names with their positions.  Embedded
(anonymous) fields have an empty `names` list. -/
structure FieldDecl where
  doc : Option (List String)
  comment : Option (List String)
  names : List (String × Nat)
deriving DecidableEq

/-- Type declaration (`*ast.TypeSpec`): `obj` models
`pass.TypesInfo.Defs[node.Name]` cast to `*types.TypeName` (`none` when the
object is absent or not a type name); `structFields` is `some` exactly when
`node.Type` is a `*ast.StructType`. -/
structure TypeSpecNode where
  obj : Option TypeName
  structFields : Option (List FieldDecl)
deriving DecidableEq

/-- Function declaration (`*ast.FuncDecl`) with the resolved receiver and
result types.  `doc` models `node.Doc.List` texts. -/
structure FuncDecl where
  pos : Nat
  name : String
  doc : Option (List String)
  recv : Option GoType
  params : List (List String)
  results : List GoType
  body : Stmt
deriving DecidableEq

/-- Top-level declaration. -/
inductive Decl where
  | typeDecl (t : TypeSpecNode)
  | funcDecl (f : FuncDecl)
deriving DecidableEq

/-- One compilation unit (the package the pass analyzes). -/
structure CompilationUnit where
  decls : List Decl
deriving DecidableEq

/-- Diagnostic, carrying the data the two `pass.Reportf` calls interpolate:
the report position, the cited names, and the marker declaration position. -/
inductive Diag where
  | fieldDiag (pos : Nat) (ownerName fieldName : String) (markerPos : Nat)
  | paramDiag (pos : Nat) (paramName : String) (markerPos : Nat)
deriving DecidableEq

/-! ## Index building (first pass of `run`) -/

/-- Key of the `constFields` map (struct `constField` in the source). -/
structure constField where
  structType : TypeName
  fieldName : String
deriving DecidableEq

/-- Key of the `constParams` map (struct `constParam` in the source). -/
structure constParam where
  funcName : String
  paramName : String
  packagePath : String
deriving DecidableEq

/-- Marker detection for one struct field: any doc comment containing
`+const`, else any trailing comment containing `+const` (the source checks
`field.Doc` first and skips `field.Comment` once a marker is found). -/
def fieldHasConstMarker (fd : FieldDecl) : Bool :=
  (match fd.doc with
   | some cs => cs.any (fun c => strContains c "+const")
   | none => false)
  ||
  (match fd.comment with
   | some cs => cs.any (fun c => strContains c "+const")
   | none => false)

/-- Entries a single field declaration contributes to `constFields`: one per
declared name when the marker is present. -/
def fieldDeclEntries (tn : TypeName) (fd : FieldDecl) : List (constField × Nat) :=
  if fieldHasConstMarker fd then
    fd.names.map (fun np => (⟨tn, np.1⟩, np.2))
  else []

/-- Entries a type declaration contributes to `constFields`. -/
def typeSpecFieldEntries (t : TypeSpecNode) : List (constField × Nat) :=
  match t.structFields with
  | none => []
  | some fds =>
    match t.obj with
    | none => []
    | some tn => (fds.map (fieldDeclEntries tn)).flatten

/-- Scan of a function's doc comments, mirroring the comment loop in `run`:
the first comment carrying a closed `// +const:[...]` marker yields the
bracket contents (`Sum.inl`); otherwise the first comment whose trimmed text
is exactly `// +const` yields the all-parameters marker (`Sum.inr`). -/
def scanDocComments : List String → Option (Sum String Unit)
  | [] => none
  | text :: rest =>
    match strIndex text "// +const:[" with
    | some ci =>
      let tail := text.data.drop (ci + 11)
      match subIndex [']'] tail with
      | some endIdx => some (Sum.inl (String.mk (tail.take endIdx)))
      | none =>
        if strTrim text = "// +const" then some (Sum.inr ())
        else scanDocComments rest
    | none =>
      if strTrim text = "// +const" then some (Sum.inr ())
      else scanDocComments rest

/-- Entries a function declaration contributes to `constParams`.  The
explicit list is comma-split and trimmed; the standalone marker expands to
every declared parameter name; an empty explicit list (`constParamList ==
""`) is treated as no marker, exactly as in the source. -/
def funcEntries (packagePath : String) (f : FuncDecl) : List (constParam × Nat) :=
  match f.doc with
  | none => []
  | some comments =>
    match scanDocComments comments with
    | none => []
    | some (Sum.inr ()) =>
      (f.params.flatten).map (fun p => (⟨f.name, p, packagePath⟩, f.pos))
    | some (Sum.inl listStr) =>
      if listStr = "" then []
      else
        ((splitComma listStr.data).map (fun cs => String.mk (trimChars cs))).map
          (fun p => (⟨f.name, p, packagePath⟩, f.pos))

/-- Fold of the first `Preorder` over the declarations, building the two
lookup tables with Go-map insertion semantics. -/
def buildTables (packagePath : String) (u : CompilationUnit) :
    List (constField × Nat) × List (constParam × Nat) :=
  u.decls.foldl
    (fun tabs d =>
      match d with
      | Decl.typeDecl t =>
        ((typeSpecFieldEntries t).foldl (fun m e => mapInsert m e.1 e.2) tabs.1, tabs.2)
      | Decl.funcDecl f =>
        (tabs.1, (funcEntries packagePath f).foldl (fun m e => mapInsert m e.1 e.2) tabs.2))
    ([], [])

/-! ## Initialization-context heuristic (`isInstanciator`) -/

/-- Composite-literal search within an expression, as the `ast.Inspect` in
`isInstanciator`: a literal counts when its resolved type, after unwrapping
one pointer level, is identical to the named type. -/
def exprHasLit (tn : TypeName) : Expr → Bool
  | Expr.compositeLit lt elts =>
    (match lt with
     | none => false
     | some t =>
       (match t with
        | GoType.pointer e => e
        | other => other) == GoType.named tn)
    || exprHasLit tn elts
  | Expr.selector _ recvE _ _ => exprHasLit tn recvE
  | Expr.unary e => exprHasLit tn e
  | Expr.pair a b => exprHasLit tn a || exprHasLit tn b
  | _ => false

/-- Composite-literal search within a statement tree. -/
def stmtHasLit (tn : TypeName) : Stmt → Bool
  | Stmt.assign _ lhs rhs => exprHasLit tn lhs || exprHasLit tn rhs
  | Stmt.incDec e => exprHasLit tn e
  | Stmt.ifS c thn els => exprHasLit tn c || stmtHasLit tn thn || stmtHasLit tn els
  | Stmt.ret results => exprHasLit tn results
  | Stmt.seq s t => stmtHasLit tn s || stmtHasLit tn t
  | Stmt.skip => false

/-- Mirror of `isInstanciator`: the enclosing function's body contains a
composite literal of the named type (or of a one-level pointer form of it),
anywhere, regardless of control flow. -/
def isInstanciator (encl : FuncDecl) (tn : TypeName) : Bool :=
  stmtHasLit tn encl.body

/-! ## Mutation checks (second pass of `run`) -/

/-- Receiver-type unwrapping performed by the `switch` in `checkAssignment`:
a named type, or a pointer whose element is a named type; every other shape
yields no owner. -/
def recvNamed : GoType → Option TypeName
  | GoType.named tn => some tn
  | GoType.pointer (GoType.named tn) => some tn
  | _ => none

/-- Mirror of `checkAssignment`: flags a field-selector write target whose
resolved owner and field name are in the `constFields` table, unless the
enclosing function is an instanciator of the owner type. -/
def checkAssignment (fields : List (constField × Nat)) (encl : FuncDecl) :
    Expr → Option Diag
  | Expr.selector pos _ selName sel =>
    match sel with
    | none => none
    | some selection =>
      if !selection.isFieldVal then none
      else
        match selection.recv with
        | none => none
        | some recvType =>
          match recvNamed recvType with
          | none => none
          | some tn =>
            match mapLookup fields ⟨tn, selName⟩ with
            | none => none
            | some fieldPos =>
              if isInstanciator encl tn then none
              else some (Diag.fieldDiag pos tn.name selName fieldPos)
  | _ => none

/-- Alias kept from the source (`checkFieldAssignment` forwards to
`checkAssignment`). -/
def checkFieldAssignment (fields : List (constField × Nat)) (encl : FuncDecl)
    (e : Expr) : Option Diag :=
  checkAssignment fields encl e

/-- Mirror of `checkParamAssignment`: flags a bare-identifier write target
when the resolved object exists with a position and the key (enclosing
function name, identifier name, package path) is in the `constParams`
table.  The resolver-known binding kind is never consulted. -/
def checkParamAssignment (params : List (constParam × Nat))
    (packagePath : String) (encl : FuncDecl) : Expr → Option Diag
  | Expr.ident pos name obj =>
    match obj with
    | none => none
    | some o =>
      if !o.hasPos then none
      else
        match mapLookup params ⟨encl.name, name, packagePath⟩ with
        | none => none
        | some paramPos => some (Diag.paramDiag pos name paramPos)
  | _ => none

/-- Flattening of a right-nested expression sequence into the list the
scanner's `for _, lhs := range assignStmt.Lhs` iterates. -/
def exprList : Expr → List Expr
  | Expr.enil => []
  | Expr.pair a b => a :: exprList b
  | e => [e]

/-- Diagnostics contributed by one assignment target: the field check runs
first, then the parameter check, as in the scanner's loop body. -/
def lhsDiags (fields : List (constField × Nat)) (params : List (constParam × Nat))
    (packagePath : String) (encl : FuncDecl) (e : Expr) : List Diag :=
  (checkFieldAssignment fields encl e).toList
    ++ (checkParamAssignment params packagePath encl e).toList

/-- Diagnostics of the second `Preorder` restricted to one statement tree:
every assignment statement is visited once, define statements are skipped,
and each left-hand target is checked independently. -/
def stmtDiags (fields : List (constField × Nat)) (params : List (constParam × Nat))
    (packagePath : String) (encl : FuncDecl) : Stmt → List Diag
  | Stmt.assign isDefine lhs _ =>
    if isDefine then []
    else ((exprList lhs).map (lhsDiags fields params packagePath encl)).flatten
  | Stmt.ifS _ thn els =>
    stmtDiags fields params packagePath encl thn
      ++ stmtDiags fields params packagePath encl els
  | Stmt.seq s t =>
    stmtDiags fields params packagePath encl s
      ++ stmtDiags fields params packagePath encl t
  | _ => []

/-- Diagnostics of one function body (the enclosing `FuncDecl` found by
`astPath` is the declaration whose body contains the statement). -/
def funcDiags (fields : List (constField × Nat)) (params : List (constParam × Nat))
    (packagePath : String) (f : FuncDecl) : List Diag :=
  stmtDiags fields params packagePath f f.body

/-- Mirror of `run`: build both tables over the whole unit, then scan every
function body for mutations. -/
def run (packagePath : String) (u : CompilationUnit) : List Diag :=
  let tabs := buildTables packagePath u
  (u.decls.map
    (fun d =>
      match d with
      | Decl.funcDecl f => funcDiags tabs.1 tabs.2 packagePath f
      | Decl.typeDecl _ => [])).flatten

/-! ## The spec's three-rule initialization-context classifier

The current source implements only the composite-literal rule
(`isInstanciator`).  The constructor-name and result-type rules exist in an
earlier revision of the analyzer (`isConstructorName`, `returnsOwnType`
inside `isInConstructor`); the combined three-rule predicate below follows
the spec's §4.5 for comparison with the implemented behaviour. -/

/-- Conventional constructor-name prefixes (`isConstructorName` in the
earlier analyzer revision). -/
def constructorNamePrefixList : List String := ["New", "Create", "Init", "Make"]

/-- Mirror of `isConstructorName`: the routine's simple name starts with one
of the conventional constructor prefixes (`strings.HasPrefix`, at the
character level). -/
def isConstructorName (name : String) : Bool :=
  constructorNamePrefixList.any (fun p => List.isPrefixOf p.data name.data)

/-- One-level pointer unwrap used by the receiver/result rules. -/
def unwrapPointerOnce : GoType → GoType
  | GoType.pointer e => e
  | t => t

/-- Mirror of `returnsOwnType`: some declared result type, after one pointer
unwrap, is identical to the owner type. -/
def returnsOwnType (f : FuncDecl) (tn : TypeName) : Bool :=
  f.results.any (fun t => unwrapPointerOnce t == GoType.named tn)

/-- Modelled from the spec: the three-rule initialization-context classifier
of §4.5 — (a) a method of the owner whose simple name carries a conventional
constructor prefix, (b) a declared result of the owner type after one level
of pointer unwrapping, or (c) a composite literal of the owner type anywhere
in the body.  Rules (a) and (b) are not present in the current analyzer
source; they follow the spec's words and the earlier revision's
`isConstructorName` / `returnsOwnType`. -/
def specInitContext (f : FuncDecl) (tn : TypeName) : Bool :=
  (match f.recv with
   | some r => unwrapPointerOnce r == GoType.named tn && isConstructorName f.name
   | none => false)
  || returnsOwnType f tn
  || stmtHasLit tn f.body


/-! ## Claim C1 -/

/-- Owner type used by the concrete scenarios below. -/
def personType : TypeName := ⟨1, "Person"⟩

/-- Struct declaration of `Person` with field `Name` marked `// +const`. -/
def personTypeDecl : TypeSpecNode :=
  { obj := some personType
  , structFields := some
      [ { doc := some ["// +const"], comment := none, names := [("Name", 10)] } ] }

/-- Write target `p.Name` at a given position, with the selection resolved
to a `*Person` receiver. -/
def writeNameTarget (pos : Nat) : Expr :=
  Expr.selector pos (Expr.ident 1 "p" (some ⟨true, ObjKind.param⟩)) "Name"
    (some ⟨true, some (GoType.pointer (GoType.named personType))⟩)

/-- Method of `*Person` named with the constructor prefix `New`, whose body
reassigns `p.Name` and contains no composite literal of `Person`. -/
def newNameMethod : FuncDecl :=
  { pos := 100, name := "NewName", doc := none
  , recv := some (GoType.pointer (GoType.named personType))
  , params := [["name"]], results := []
  , body := Stmt.assign false (writeNameTarget 101)
      (Expr.ident 102 "name" (some ⟨true, ObjKind.param⟩)) }

/-- Unit holding the marked `Person.Name` field and `newNameMethod`. -/
def unitC1 : CompilationUnit :=
  ⟨[Decl.typeDecl personTypeDecl, Decl.funcDecl newNameMethod]⟩

/-- Claim C1 is false on the code: `newNameMethod` satisfies
initialization-context rule (a) of the claim (it is a method of `Person`
whose simple name starts with the constructor prefix `New`), yet the
analyzer reports the reassignment of `p.Name`, because `isInstanciator`
implements only the composite-literal rule (c). -/
theorem claim_C1_counterexample :
    specInitContext newNameMethod personType = true
      ∧ run "a" unitC1 = [Diag.fieldDiag 101 "Person" "Name" 10] := by
  decide

/-- Claim C1 as amended: a reassignment to a field marked immutable yields
no diagnostic when the enclosing routine's body contains a composite
literal of the owner type (or of a one-level pointer form of it) anywhere,
regardless of control-flow reachability — rule (c); the constructor-name
rule (a) and result-type rule (b) do not exempt in the current code. -/
theorem claim_C1_amended (fields : List (constField × Nat))
    (params : List (constParam × Nat)) (pkg : String) (f : FuncDecl)
    (pos : Nat) (re : Expr) (sn : String) (rt : GoType) (tn : TypeName)
    (rhs : Expr)
    (hrecv : recvNamed rt = some tn)
    (hlit : stmtHasLit tn f.body = true) :
    stmtDiags fields params pkg f
      (Stmt.assign false (Expr.selector pos re sn (some ⟨true, some rt⟩)) rhs)
      = [] := by
  have hinst : isInstanciator f tn = true := hlit
  rcases hmap : mapLookup fields (⟨tn, sn⟩ : constField) with _ | mp <;>
    simp [stmtDiags, exprList, lhsDiags, checkFieldAssignment, checkAssignment,
      checkParamAssignment, hrecv, hmap, hinst]

/-- Routine whose body instantiates `Person` only inside one branch of a
conditional, then reassigns `p.Name` unconditionally. -/
def litBranchFn : FuncDecl :=
  { pos := 200, name := "PopulateMaybe", doc := none
  , recv := none, params := [], results := []
  , body := Stmt.seq
      (Stmt.ifS Expr.basicLit
        (Stmt.assign true (Expr.ident 201 "q" (some ⟨true, ObjKind.localVar⟩))
          (Expr.compositeLit (some (GoType.named personType)) Expr.enil))
        Stmt.skip)
      (Stmt.assign false (writeNameTarget 202) Expr.basicLit) }

/-- Witness for the amended claim C1 at a concrete input: the composite
literal sits in a branch that does not dominate the write, and the write is
still exempt. -/
theorem claim_C1_amended_witness :
    stmtDiags [(⟨personType, "Name"⟩, 10)] [] "a" litBranchFn
      (Stmt.assign false (writeNameTarget 202) Expr.basicLit) = [] :=
  claim_C1_amended [(⟨personType, "Name"⟩, 10)] [] "a" litBranchFn 202
    (Expr.ident 1 "p" (some ⟨true, ObjKind.param⟩)) "Name"
    (GoType.pointer (GoType.named personType)) personType Expr.basicLit
    (by decide) (by decide)


/-! ## Claim C2 -/

/-- Owner type of the malformed-marker scenario. -/
def configType : TypeName := ⟨2, "Config"⟩

/-- Struct declaration whose field `APIKey` carries only the malformed
marker `// +const:[` (never closed). -/
def configTypeDecl : TypeSpecNode :=
  { obj := some configType
  , structFields := some
      [ { doc := some ["// +const:["], comment := none, names := [("APIKey", 20)] } ] }

/-- Routine that reassigns `c.APIKey` and contains no `Config` literal. -/
def updateConfigFn : FuncDecl :=
  { pos := 120, name := "UpdateConfig", doc := none
  , recv := none, params := [["c"]], results := []
  , body := Stmt.assign false
      (Expr.selector 121 (Expr.ident 1 "c" (some ⟨true, ObjKind.param⟩)) "APIKey"
        (some ⟨true, some (GoType.pointer (GoType.named configType))⟩))
      Expr.basicLit }

/-- Unit holding the malformed field marker and the writer routine. -/
def unitC2 : CompilationUnit :=
  ⟨[Decl.typeDecl configTypeDecl, Decl.funcDecl updateConfigFn]⟩

/-- Claim C2 is false on the code: the field-marker test is substring
containment of `+const` (`strings.Contains`), so the malformed `// +const:[`
does mark the field — a declaration entry is created and the later write is
reported.  (The builder still does not crash: all functions here are
total.) -/
theorem claim_C2_counterexample :
    (buildTables "a" unitC2).1 = [(⟨configType, "APIKey"⟩, 20)]
      ∧ run "a" unitC2 = [Diag.fieldDiag 121 "Config" "APIKey" 20] := by
  decide

/-- Claim C2 as amended: the index builder never crashes on a malformed
marker, and on a routine's doc comment a `// +const:[` with no closing
bracket is ignored (the scan treats that comment as markerless); but a
field whose comment contains the substring `+const` — the malformed
`// +const:[` included — is treated as marked. -/
theorem claim_C2_amended :
    (∀ rest : List String,
        scanDocComments ("// +const:[" :: rest) = scanDocComments rest)
      ∧ (∀ fd : FieldDecl, fd.doc = some ["// +const:["] →
          fieldHasConstMarker fd = true) := by
  constructor
  · intro rest
    have h1 : strIndex "// +const:[" "// +const:[" = some 0 := by decide
    have h2 : subIndex [']'] ([] : List Char) = none := by decide
    have h3 : ¬(strTrim "// +const:[" = "// +const") := by decide
    simp [scanDocComments, h1, h2, h3]
  · intro fd hdoc
    have h4 : strContains "// +const:[" "+const" = true := by decide
    simp [fieldHasConstMarker, hdoc, h4]

/-- Witness for the amended claim C2 at concrete inputs. -/
theorem claim_C2_amended_witness :
    scanDocComments ["// +const:["] = none
      ∧ fieldHasConstMarker
          { doc := some ["// +const:["], comment := none, names := [("APIKey", 20)] }
          = true :=
  ⟨claim_C2_amended.1 [], claim_C2_amended.2
    { doc := some ["// +const:["], comment := none, names := [("APIKey", 20)] } rfl⟩


/-! ## Claim C3 -/

/-- Routine whose parameter `x` is marked immutable; its body first
introduces a new local `x` with a define statement (shadowing the
parameter) and then reassigns that local.  The resolver reports the write
target's binding as a local variable (`ObjKind.localVar`). -/
def shadowFn : FuncDecl :=
  { pos := 300, name := "WithShadow", doc := some ["// +const:[x]"]
  , recv := none, params := [["x"]], results := []
  , body := Stmt.seq
      (Stmt.assign true (Expr.ident 301 "x" (some ⟨true, ObjKind.localVar⟩))
        Expr.basicLit)
      (Stmt.assign false (Expr.ident 302 "x" (some ⟨true, ObjKind.localVar⟩))
        Expr.basicLit) }

/-- Unit holding only `shadowFn`. -/
def unitC3 : CompilationUnit := ⟨[Decl.funcDecl shadowFn]⟩

/-- Claim C3 fails on the code and the claim matches the stated intent
(the spec and the source comment "Check if this identifier is a parameter
in the function"): the write at position 302 reassigns the shadowing local
variable — its resolved binding is `ObjKind.localVar`, not a parameter —
yet `checkParamAssignment` reports it, because the lookup is keyed by the
bare name and the binding's parameterhood is never checked.  The define
statement at position 301 is correctly not flagged (the single diagnostic
is the one at 302). -/
theorem claim_C3_code_bug :
    run "a" unitC3 = [Diag.paramDiag 302 "x" 300]
      ∧ checkParamAssignment (buildTables "a" unitC3).2 "a" shadowFn
          (Expr.ident 302 "x" (some ⟨true, ObjKind.localVar⟩))
          = some (Diag.paramDiag 302 "x" 300) := by
  decide

/-! ## Claim C4 -/

/-- Claim C4: a reassignment whose bare-name target carries a resolved
object with a position, and whose (enclosing-routine name, target name,
package path) key is in the `constParams` table, contributes exactly one
parameter diagnostic — and the contribution is the same for every enclosing
routine of that name, whatever its receiver, results, or body: the
initialization-context heuristic is never consulted for parameter writes. -/
theorem claim_C4_param_unconditional (fields : List (constField × Nat))
    (params : List (constParam × Nat)) (pkg : String) (f : FuncDecl)
    (pos : Nat) (p : String) (o : ObjInfo) (mpos : Nat) (rhs : Expr)
    (hobj : o.hasPos = true)
    (hlook : mapLookup params (⟨f.name, p, pkg⟩ : constParam) = some mpos) :
    stmtDiags fields params pkg f
        (Stmt.assign false (Expr.ident pos p (some o)) rhs)
        = [Diag.paramDiag pos p mpos]
      ∧ ∀ f' : FuncDecl, f'.name = f.name →
          stmtDiags fields params pkg f'
              (Stmt.assign false (Expr.ident pos p (some o)) rhs)
            = [Diag.paramDiag pos p mpos] := by
  have hgen : ∀ f' : FuncDecl, f'.name = f.name →
      stmtDiags fields params pkg f'
          (Stmt.assign false (Expr.ident pos p (some o)) rhs)
        = [Diag.paramDiag pos p mpos] := by
    intro f' hname
    have hlook' : mapLookup params (⟨f'.name, p, pkg⟩ : constParam) = some mpos := by
      rw [hname]; exact hlook
    simp [stmtDiags, exprList, lhsDiags, checkFieldAssignment, checkAssignment,
      checkParamAssignment, hobj, hlook']
  exact ⟨hgen f rfl, hgen⟩

/-- Routine for the C4 witness: `SetValue` is itself an instanciator of
`Person` (its body builds a `Person{}` literal), and its parameter write is
flagged all the same. -/
def setValueFn : FuncDecl :=
  { pos := 400, name := "SetValue", doc := some ["// +const:[v]"]
  , recv := none, params := [["v"]], results := []
  , body := Stmt.seq
      (Stmt.assign true (Expr.ident 401 "q" (some ⟨true, ObjKind.localVar⟩))
        (Expr.compositeLit (some (GoType.named personType)) Expr.enil))
      (Stmt.assign false (Expr.ident 402 "v" (some ⟨true, ObjKind.param⟩))
        Expr.basicLit) }

/-- Witness for claim C4 at a concrete input: the enclosing routine is an
initialization context (it instantiates `Person`), and the parameter write
still yields exactly the one diagnostic. -/
theorem claim_C4_witness :
    stmtDiags [] [(⟨"SetValue", "v", "a"⟩, 400)] "a" setValueFn
      (Stmt.assign false (Expr.ident 402 "v" (some ⟨true, ObjKind.param⟩))
        Expr.basicLit)
      = [Diag.paramDiag 402 "v" 400] :=
  (claim_C4_param_unconditional [] [(⟨"SetValue", "v", "a"⟩, 400)] "a"
    setValueFn 402 "v" ⟨true, ObjKind.param⟩ 400 Expr.basicLit rfl
    (by decide)).1


/-! ## Claim C5 -/

/-- Claim C5: a non-define reassignment of a field-selector target whose
resolved owner and field name are in the `constFields` table, in a routine
that is not an initialization context for the owner (the spec's three-rule
classifier is false), contributes exactly one diagnostic citing the field
name, the owner's name, and the marker's declaration position. -/
theorem claim_C5_field_violation (fields : List (constField × Nat))
    (params : List (constParam × Nat)) (pkg : String) (f : FuncDecl)
    (pos : Nat) (re : Expr) (fn : String) (rt : GoType) (tn : TypeName)
    (mpos : Nat) (rhs : Expr)
    (hrecv : recvNamed rt = some tn)
    (hlook : mapLookup fields (⟨tn, fn⟩ : constField) = some mpos)
    (hctx : specInitContext f tn = false) :
    stmtDiags fields params pkg f
        (Stmt.assign false (Expr.selector pos re fn (some ⟨true, some rt⟩)) rhs)
      = [Diag.fieldDiag pos tn.name fn mpos] := by
  have hlit : stmtHasLit tn f.body = false := by
    rcases h : stmtHasLit tn f.body with _ | _
    · rfl
    · rw [specInitContext, h] at hctx; simp at hctx
  have hinst : isInstanciator f tn = false := hlit
  simp [stmtDiags, exprList, lhsDiags, checkFieldAssignment, checkAssignment,
    checkParamAssignment, hrecv, hlook, hinst]

/-- Routine `SetName` of the canonical scenario: not constructor-named, no
owner-typed result, no owner literal in the body. -/
def setNameFn : FuncDecl :=
  { pos := 500, name := "SetName", doc := none
  , recv := some (GoType.pointer (GoType.named personType))
  , params := [["name"]], results := []
  , body := Stmt.assign false (writeNameTarget 501)
      (Expr.ident 502 "name" (some ⟨true, ObjKind.param⟩)) }

/-- Witness for claim C5 at the canonical scenario: `SetName` reassigning
`p.Name` yields exactly the one diagnostic citing `Name`, `Person`, and the
marker position. -/
theorem claim_C5_witness :
    stmtDiags [(⟨personType, "Name"⟩, 10)] [] "a" setNameFn
      (Stmt.assign false (writeNameTarget 501)
        (Expr.ident 502 "name" (some ⟨true, ObjKind.param⟩)))
      = [Diag.fieldDiag 501 "Person" "Name" 10] :=
  claim_C5_field_violation [(⟨personType, "Name"⟩, 10)] [] "a" setNameFn 501
    (Expr.ident 1 "p" (some ⟨true, ObjKind.param⟩)) "Name"
    (GoType.pointer (GoType.named personType)) personType 10
    (Expr.ident 502 "name" (some ⟨true, ObjKind.param⟩))
    (by decide) (by decide) (by decide)


/-! ## Claim C6 -/

/-- Doc-comment line without any marker the scan would act on: no
well-formed `// +const:[...]` list, and trimmed text different from
`// +const`. -/
def commentNoMarker (t : String) : Bool :=
  (match strIndex t "// +const:[" with
   | some ci => (subIndex [']'] (t.data.drop (ci + 11))).isNone
   | none => true)
  && !(strTrim t = "// +const")

/-- A markerless comment line is skipped by the doc scan. -/
theorem scanDocComments_skip (t : String) (rest : List String)
    (h : commentNoMarker t = true) :
    scanDocComments (t :: rest) = scanDocComments rest := by
  rw [commentNoMarker, Bool.and_eq_true] at h
  obtain ⟨h1, h2⟩ := h
  have htrim : ¬(strTrim t = "// +const") := by
    intro hc
    rw [hc] at h2
    simp at h2
  rcases hidx : strIndex t "// +const:[" with _ | ci
  · simp [scanDocComments, hidx, htrim]
  · rw [hidx] at h1
    simp only [Option.isNone_iff_eq_none] at h1
    simp [scanDocComments, hidx, h1, htrim]

/-- The doc scan resolves to the all-parameters marker when a standalone
`// +const` line follows only markerless lines. -/
theorem scanDocComments_standalone (post : List String) :
    ∀ pre : List String, (∀ t ∈ pre, commentNoMarker t = true) →
      scanDocComments (pre ++ "// +const" :: post) = some (Sum.inr ()) := by
  intro pre
  induction pre with
  | nil =>
    intro _
    have h1 : strIndex "// +const" "// +const:[" = none := by decide
    have h2 : strTrim "// +const" = "// +const" := by decide
    simp [scanDocComments, h1, h2]
  | cons t ts ih =>
    intro hpre
    have ht : commentNoMarker t = true := hpre t (List.mem_cons_self t ts)
    have hts : ∀ u ∈ ts, commentNoMarker u = true := by
      intro u hu
      exact hpre u (List.mem_cons_of_mem t hu)
    rw [List.cons_append, scanDocComments_skip t _ ht]
    exact ih hts

/-- Routine whose doc carries a well-formed explicit list before the
standalone `// +const` line, with declared parameters `a` and `b`. -/
def bothMarkersFn : FuncDecl :=
  { pos := 600, name := "Configure", doc := some ["// +const:[a]", "// +const"]
  , recv := none, params := [["a"], ["b"]], results := []
  , body := Stmt.skip }

/-- Unit holding only `bothMarkersFn`. -/
def unitC6 : CompilationUnit := ⟨[Decl.funcDecl bothMarkersFn]⟩

/-- Claim C6 is false on the code: `bothMarkersFn`'s doc contains a line
whose trimmed text is exactly `// +const`, and the routine declares
parameters `a` and `b`, yet only `a` is entered — the earlier well-formed
explicit-list marker wins the scan, so `b` gets no entry. -/
theorem claim_C6_counterexample :
    ((["// +const:[a]", "// +const"] : List String).any
        (fun t => strTrim t = "// +const")) = true
      ∧ bothMarkersFn.params.flatten = ["a", "b"]
      ∧ funcEntries "a" bothMarkersFn = [(⟨"Configure", "a", "a"⟩, 600)]
      ∧ mapLookup (buildTables "a" unitC6).2 (⟨"Configure", "b", "a"⟩ : constParam)
          = none := by
  decide

/-- Claim C6 as amended: when no earlier doc line carries a marker the scan
acts on, a line whose trimmed text is exactly `// +const` enters every
declared parameter name into the table (keyed with the routine's name and
position); a routine with zero declared parameters produces no entries and
no error. -/
theorem claim_C6_amended (pkg : String) (f : FuncDecl)
    (pre post : List String)
    (hdoc : f.doc = some (pre ++ "// +const" :: post))
    (hpre : ∀ t ∈ pre, commentNoMarker t = true) :
    funcEntries pkg f
        = (f.params.flatten).map (fun p => (⟨f.name, p, pkg⟩, f.pos))
      ∧ (f.params.flatten = [] → funcEntries pkg f = []) := by
  have hscan := scanDocComments_standalone post pre hpre
  have hfe : funcEntries pkg f
      = (f.params.flatten).map (fun p => (⟨f.name, p, pkg⟩, f.pos)) := by
    simp only [funcEntries, hdoc, hscan]
  refine ⟨hfe, fun hz => ?_⟩
  rw [hfe, hz, List.map_nil]

/-- Routine with the standalone marker after an ordinary doc line. -/
def allConstFn : FuncDecl :=
  { pos := 700, name := "Blank", doc := some ["// Blank does stuff.", "// +const"]
  , recv := none, params := [["a"], ["b"]], results := []
  , body := Stmt.skip }

/-- Zero-parameter routine with the standalone marker. -/
def zeroParamFn : FuncDecl :=
  { pos := 710, name := "Reset", doc := some ["// +const"]
  , recv := none, params := [], results := []
  , body := Stmt.skip }

/-- Witness for the amended claim C6 at concrete inputs: both declared
parameters are entered for `allConstFn`, and `zeroParamFn` yields no
entries. -/
theorem claim_C6_amended_witness :
    funcEntries "a" allConstFn
        = [(⟨"Blank", "a", "a"⟩, 700), (⟨"Blank", "b", "a"⟩, 700)]
      ∧ funcEntries "a" zeroParamFn = [] := by
  constructor
  · exact (claim_C6_amended "a" allConstFn ["// Blank does stuff."] [] rfl
      (by decide)).1
  · exact (claim_C6_amended "a" zeroParamFn [] [] rfl (by decide)).2 rfl


/-! ## Claim C7 -/

/-- Claim C7: the `constFields` table is keyed by the resolved type
identity, not the display name.  With an entry for one owner, a lookup or a
field-selector check against a distinct owner of the same display name and
field name finds nothing and reports nothing, while the owner's own lookup
still yields its own declaration position. -/
theorem claim_C7_identity_keys (idA idB : Nat) (nm fn : String) (posA : Nat)
    (h : idA ≠ idB) (f : FuncDecl) (pos : Nat) (re : Expr) :
    mapLookup [((⟨⟨idA, nm⟩, fn⟩ : constField), posA)]
        (⟨⟨idB, nm⟩, fn⟩ : constField) = none
      ∧ checkAssignment [((⟨⟨idA, nm⟩, fn⟩ : constField), posA)] f
          (Expr.selector pos re fn
            (some ⟨true, some (GoType.named ⟨idB, nm⟩)⟩)) = none
      ∧ mapLookup [((⟨⟨idA, nm⟩, fn⟩ : constField), posA)]
          (⟨⟨idA, nm⟩, fn⟩ : constField) = some posA := by
  have hne : ¬((⟨⟨idB, nm⟩, fn⟩ : constField) = (⟨⟨idA, nm⟩, fn⟩ : constField)) := by
    intro hc
    apply h
    cases hc
    rfl
  have hnone : mapLookup [((⟨⟨idA, nm⟩, fn⟩ : constField), posA)]
      (⟨⟨idB, nm⟩, fn⟩ : constField) = none := by
    simp [mapLookup, hne]
  refine ⟨hnone, ?_, by simp [mapLookup]⟩
  simp [checkAssignment, recvNamed, hnone]

/-- Witness for claim C7 at concrete inputs: two owners both displayed
`Person` with ids 1 and 2. -/
theorem claim_C7_witness :
    mapLookup [((⟨⟨1, "Person"⟩, "Name"⟩ : constField), 10)]
        (⟨⟨2, "Person"⟩, "Name"⟩ : constField) = none
      ∧ checkAssignment [((⟨⟨1, "Person"⟩, "Name"⟩ : constField), 10)] setNameFn
          (Expr.selector 801 Expr.basicLit "Name"
            (some ⟨true, some (GoType.named ⟨2, "Person"⟩)⟩)) = none
      ∧ mapLookup [((⟨⟨1, "Person"⟩, "Name"⟩ : constField), 10)]
          (⟨⟨1, "Person"⟩, "Name"⟩ : constField) = some 10 :=
  claim_C7_identity_keys 1 2 "Person" "Name" 10 (by decide) setNameFn 801
    Expr.basicLit

/-! ## Claim C8 -/

/-- Claim C8: the receiver's static type is unwrapped through exactly one
pointer level — a named receiver or a pointer-to-named receiver yields that
named owner; a pointer to a pointer, a pointer to a non-named type, and any
other shape yield no owner; and a target whose owner resolution fails, or
whose selection is unresolved, produces no diagnostic at all. -/
theorem claim_C8_unwrap_one_level (fields : List (constField × Nat))
    (params : List (constParam × Nat)) (pkg : String) (f : FuncDecl)
    (tn : TypeName) (t : GoType) (pos : Nat) (re : Expr) (sn : String)
    (rhs : Expr) :
    recvNamed (GoType.named tn) = some tn
      ∧ recvNamed (GoType.pointer (GoType.named tn)) = some tn
      ∧ recvNamed (GoType.pointer (GoType.pointer t)) = none
      ∧ recvNamed (GoType.pointer GoType.basic) = none
      ∧ recvNamed GoType.basic = none
      ∧ (∀ rt : GoType, recvNamed rt = none →
          stmtDiags fields params pkg f
            (Stmt.assign false (Expr.selector pos re sn (some ⟨true, some rt⟩)) rhs)
            = [])
      ∧ stmtDiags fields params pkg f
          (Stmt.assign false (Expr.selector pos re sn none) rhs) = [] := by
  refine ⟨rfl, rfl, rfl, rfl, rfl, ?_, ?_⟩
  · intro rt hrt
    simp [stmtDiags, exprList, lhsDiags, checkFieldAssignment, checkAssignment,
      checkParamAssignment, hrt]
  · simp [stmtDiags, exprList, lhsDiags, checkFieldAssignment, checkAssignment,
      checkParamAssignment]

/-- Witness for claim C8 at concrete inputs: a pointer-to-pointer receiver
produces no diagnostic. -/
theorem claim_C8_witness :
    stmtDiags [(⟨personType, "Name"⟩, 10)] [] "a" setNameFn
      (Stmt.assign false
        (Expr.selector 810 Expr.basicLit "Name"
          (some ⟨true, some (GoType.pointer (GoType.pointer (GoType.named personType)))⟩))
        Expr.basicLit)
      = [] :=
  (claim_C8_unwrap_one_level [(⟨personType, "Name"⟩, 10)] [] "a" setNameFn
    personType (GoType.named personType) 810 Expr.basicLit "Name"
    Expr.basicLit).2.2.2.2.2.1
    (GoType.pointer (GoType.pointer (GoType.named personType))) rfl


/-! ## Claim C9 -/

/-- Claim C9: an embedded (anonymous) field — one with an empty name list —
contributes no entry to the `constFields` table whatever its comments say,
and a field-selector write whose (owner, field-name) key is absent from the
table produces no diagnostic. -/
theorem claim_C9_embedded_no_entries (tn : TypeName) (fd : FieldDecl)
    (fields : List (constField × Nat)) (params : List (constParam × Nat))
    (pkg : String) (f : FuncDecl) (pos : Nat) (re : Expr) (sn : String)
    (rhs : Expr)
    (hemb : fd.names = [])
    (hnone : mapLookup fields (⟨tn, sn⟩ : constField) = none) :
    fieldDeclEntries tn fd = []
      ∧ stmtDiags fields params pkg f
          (Stmt.assign false
            (Expr.selector pos re sn
              (some ⟨true, some (GoType.pointer (GoType.named tn))⟩)) rhs)
          = [] := by
  constructor
  · simp [fieldDeclEntries, hemb]
  · simp [stmtDiags, exprList, lhsDiags, checkFieldAssignment, checkAssignment,
      checkParamAssignment, recvNamed, hnone]

/-- Embedded field carrying the marker: no declared names. -/
def embeddedMarkedField : FieldDecl :=
  { doc := some ["// +const"], comment := none, names := [] }

/-- Witness for claim C9 at concrete inputs. -/
theorem claim_C9_witness :
    fieldDeclEntries personType embeddedMarkedField = []
      ∧ stmtDiags [] [] "a" setNameFn
          (Stmt.assign false
            (Expr.selector 901 Expr.basicLit "Inner"
              (some ⟨true, some (GoType.pointer (GoType.named personType))⟩))
            Expr.basicLit)
          = [] :=
  claim_C9_embedded_no_entries personType embeddedMarkedField [] [] "a"
    setNameFn 901 Expr.basicLit "Inner" Expr.basicLit rfl rfl

/-! ## Claim C10 -/

/-- Erasure of every increment/decrement statement from a statement tree. -/
def eraseIncDec : Stmt → Stmt
  | Stmt.incDec _ => Stmt.skip
  | Stmt.ifS c thn els => Stmt.ifS c (eraseIncDec thn) (eraseIncDec els)
  | Stmt.seq s t => Stmt.seq (eraseIncDec s) (eraseIncDec t)
  | s => s

/-- Claim C10: only assignment statements are mutation-candidate sites — an
increment/decrement statement contributes no diagnostic, and erasing every
increment/decrement statement from a body leaves the scanner's diagnostics
unchanged, for any tables and any enclosing routine. -/
theorem claim_C10_incdec_never_flagged (fields : List (constField × Nat))
    (params : List (constParam × Nat)) (pkg : String) (f : FuncDecl) :
    (∀ e : Expr, stmtDiags fields params pkg f (Stmt.incDec e) = [])
      ∧ ∀ s : Stmt, stmtDiags fields params pkg f (eraseIncDec s)
          = stmtDiags fields params pkg f s := by
  constructor
  · intro e
    rfl
  · intro s
    induction s with
    | assign d l r => rfl
    | incDec e => rfl
    | ifS c thn els iht ihe => simp [eraseIncDec, stmtDiags, iht, ihe]
    | ret r => rfl
    | seq a b iha ihb => simp [eraseIncDec, stmtDiags, iha, ihb]
    | skip => rfl

end Constlint
